import Mathlib

/-!
Verification development for the example-remote-client repository.

The definitions below are shallow embeddings of the TypeScript sources:
  * `src/utils/mcpUtils.ts`      — `normalizeServerName`
  * `src/mcp/connection.ts`      — `MCPConnectionManager.discoverTools` (tool
    name prefixing), `MCPConnectionManager.callTool` (prefix stripping) and
    `MCPConnectionManager.connect` (state outcome; this manager, the one
    imported by `src/contexts/MCPContext.tsx`, contains no reconnect
    scheduling: `reconnectTimeout` is only ever cleared, never set),
  * the duplicate legacy manager (unnamed part_004) — `getBackoffDelay`,
  * `src/hooks/useAgentLoop.ts`  — `executeTool` routing, `executeAgentLoop`,
    `DEFAULT_CONFIG`,
  * `src/contexts/MCPContext.tsx`  — `addMcpServer` error classification,
  * `src/contexts/ConversationContext.tsx` — `sendMessage`.

JavaScript strings are modelled as Lean `String`/`List Char`; JS truthiness on
strings (the empty string is falsy) is modelled explicitly where the source
relies on it.  Asynchrony is modelled by an explicit clock: every awaited
operation (an inference request, a tool invocation) advances the clock by one,
and the cooperative cancellation flag `abortController.signal.aborted` is true
once the clock has reached a chosen abort time.
-/

set_option autoImplicit false

namespace ExampleRemoteClient

/-! ### Tool-name character set and normalization (src/utils/mcpUtils.ts) -/

/-- Membership in the character class `[a-zA-Z0-9_-]` of the regexes in
`normalizeServerName`. -/
def isToolNameChar (c : Char) : Bool :=
  ('a' ≤ c && c ≤ 'z') || ('A' ≤ c && c ≤ 'Z') || ('0' ≤ c && c ≤ '9') ||
    c == '_' || c == '-'

/-- Step 1 of `normalizeServerName`: `.replace(/[^a-zA-Z0-9_-]/g, '_')`. -/
def replaceInvalid (l : List Char) : List Char :=
  l.map fun c => if isToolNameChar c then c else '_'

/-- Step 2 of `normalizeServerName`: `.replace(/_{2,}/g, '_')`, i.e. every
maximal run of two or more underscores becomes a single underscore.  Dropping
the first of each adjacent underscore pair realizes exactly that. -/
def collapseUnderscores : List Char → List Char
  | [] => []
  | a :: rest =>
    match rest with
    | [] => [a]
    | b :: _ =>
      if a == '_' && b == '_' then collapseUnderscores rest
      else a :: collapseUnderscores rest

/-- Step 3 of `normalizeServerName`: `.replace(/^_+|_+$/g, '')`, removal of
leading and trailing underscores. -/
def trimUnderscores (l : List Char) : List Char :=
  ((l.dropWhile (· == '_')).reverse.dropWhile (· == '_')).reverse

/-- The whole of `normalizeServerName` from src/utils/mcpUtils.ts:
replace invalid characters, collapse repeated underscores, trim, truncate to
32 (`.substring(0, 32)`), and fall back to `"server"` when empty
(`|| 'server'`). -/
def normalizeServerName (name : String) : String :=
  let cleaned := (trimUnderscores (collapseUnderscores (replaceInvalid name.data))).take 32
  if cleaned.isEmpty then "server" else ⟨cleaned⟩

/-- The regex `^[a-zA-Z0-9_-]{1,maxLen}$` as a Boolean predicate on strings. -/
def matchesToolNamePattern (maxLen : Nat) (s : String) : Bool :=
  decide (1 ≤ s.length) && decide (s.length ≤ maxLen) && s.data.all isToolNameChar

/-- Namespaced tool name built by `MCPConnectionManager.discoverTools` in
src/mcp/connection.ts: `` `${normalizedServerName}__${tool.name}` ``.  The
original tool name is used verbatim, without truncation or sanitization. -/
def namespacedToolName (serverName toolName : String) : String :=
  normalizeServerName serverName ++ "__" ++ toolName

/-! ### Prefix stripping and tool routing
(src/mcp/connection.ts `callTool`, src/hooks/useAgentLoop.ts `executeTool`) -/

/-- The tool name forwarded to the remote server by
`MCPConnectionManager.callTool` in src/mcp/connection.ts: the prefix
`` `${normalizeServerName(this.connection.name)}__` `` is stripped via
`toolName.slice(normalizedServerName.length + 2)` when `toolName.startsWith`
that prefix, and otherwise the name is forwarded unchanged.  The name is never
rejected as unknown. -/
def callToolName (connName toolName : String) : String :=
  if (normalizeServerName connName ++ "__").data.isPrefixOf toolName.data then
    ⟨toolName.data.drop ((normalizeServerName connName).length + 2)⟩
  else toolName

/-- JS `name.includes('__')`: the character list contains two adjacent
underscores. -/
def hasDoubleUnderscore : List Char → Bool
  | [] => false
  | a :: rest =>
    match rest with
    | [] => false
    | b :: _ => (a == '_' && b == '_') || hasDoubleUnderscore rest

/-- JS `name.split('__')[0]`: the segment before the first occurrence of
`"__"` (the whole string when there is none). -/
def splitFirstSep : List Char → List Char
  | [] => []
  | a :: rest =>
    match rest with
    | [] => [a]
    | b :: _ =>
      if a == '_' && b == '_' then []
      else a :: splitFirstSep rest

/-- One entry of the `connections` array read by `executeTool` in
src/hooks/useAgentLoop.ts: connection id and current display name. -/
structure MCPConn where
  id : String
  name : String
  deriving DecidableEq, Repr

/-- Names of the built-in test tools declared at the top of
src/hooks/useAgentLoop.ts. -/
def testToolNames : List String := ["get_weather", "get_current_time"]

/-- Where a tool call ends up after `executeTool` (src/hooks/useAgentLoop.ts)
routes it: a built-in test tool, an MCP session (identified by connection id,
with the name that `MCPConnectionManager.callTool` forwards to the remote
server), or an error result. -/
inductive RouteResult
  | testTool (name : String)
  | mcp (connId : String) (forwardedName : String)
  | errorRoute (message : String)
  deriving DecidableEq, Repr

/-- Composition of `executeTool` (src/hooks/useAgentLoop.ts, lines 189-223),
`callTool` of src/contexts/MCPContext.tsx (manager lookup by connection id)
and `MCPConnectionManager.callTool` (src/mcp/connection.ts, prefix stripping).
`executeTool` first consults the test tools by exact name; then, when the name
contains `"__"`, it recomputes `normalizeServerName(conn.name)` for each
connection and compares it against `toolCall.function.name.split('__')[0]`;
the first match receives the call, still under the full namespaced name. -/
def routeToolCall (conns : List MCPConn) (toolName : String) : RouteResult :=
  if testToolNames.contains toolName then
    .testTool toolName
  else if hasDoubleUnderscore toolName.data then
    match conns.find? (fun conn =>
        normalizeServerName conn.name == (⟨splitFirstSep toolName.data⟩ : String)) with
    | some conn => .mcp conn.id (callToolName conn.name toolName)
    | none => .errorRoute "server not found"
  else .errorRoute "unknown tool"

/-! ### Backoff (legacy duplicate manager, unnamed part_004) -/

/-- `getBackoffDelay` of the legacy `MCPConnectionManager` (unnamed
part_004): `Math.min(1000 * Math.pow(2, this.connection.connectionAttempts - 1),
16000)`, in milliseconds, evaluated at `connectionAttempts ≥ 1` (it is called
right after the counter was incremented). -/
def getBackoffDelay (connectionAttempts : Nat) : Nat :=
  min (1000 * 2 ^ (connectionAttempts - 1)) 16000

/-! ### Connection attempt outcome and addMcpServer error classification
(src/mcp/connection.ts `connect`, src/contexts/MCPContext.tsx `addMcpServer`) -/

/-- Authentication mode of a server descriptor (`authType: 'none' | 'oauth'`). -/
inductive AuthType
  | noAuth
  | oauth
  deriving DecidableEq, Repr

/-- The observable shape of a thrown JS value: whether it is an `Error`
instance (`instanceof Error`), its `.message`, and its `.constructor.name`. -/
structure JsThrown where
  isErrorInstance : Bool
  message : String
  ctorName : String
  deriving DecidableEq, Repr

/-- `createMCPError` (src/mcp/connection.ts, lines 619-627) builds a plain
object literal typed as the `MCPError` *interface*: the value is not an
`Error` instance and its constructor is `Object`. -/
def createMCPError (message : String) : JsThrown :=
  { isErrorInstance := false, message := message, ctorName := "Object" }

/-- The message `connect` records on the session when an attempt fails
(src/mcp/connection.ts, line 316):
`error instanceof Error ? error.message : 'Unknown connection error'`. -/
def connectionErrorMessage (cause : JsThrown) : String :=
  if cause.isErrorInstance then cause.message else "Unknown connection error"

/-- The value `connect` rethrows to its caller when an attempt fails
(src/mcp/connection.ts, line 320): every underlying failure — an SDK
`UnauthorizedError` included — is wrapped via
`throw this.createMCPError('connection', this.connection.error, error)`,
so what `addMcpServer` catches is never an `Error` instance. -/
def connectThrown (cause : JsThrown) : JsThrown :=
  createMCPError (connectionErrorMessage cause)

/-- The `isUnauthorizedError` classification inside `addMcpServer`
(src/contexts/MCPContext.tsx, lines 274-278): the server is OAuth and the
caught value is an `Error` instance (`error instanceof Error`, the guard of
both disjuncts) whose message is `'Unauthorized'` or whose constructor is
named `UnauthorizedError`. -/
def isUnauthorizedError (authType : AuthType) (e : JsThrown) : Bool :=
  authType == .oauth &&
    ((e.isErrorInstance && e.message == "Unauthorized") ||
      (e.isErrorInstance && e.ctorName == "UnauthorizedError"))

/-- What `addMcpServer` leaves behind for the caller/UI when the initial
`manager.connect()` settles: the value passed to `setError` (the user-facing
connection-error banner) and whether the caught value is re-raised. -/
structure AddServerOutcome where
  userError : Option String
  rethrows : Bool
  deriving DecidableEq, Repr

/-- Error handling of `addMcpServer` (src/contexts/MCPContext.tsx, lines
246-289) as a function of the connect attempt's failure, if any: a failure
classified as the expected OAuth-unauthorized trigger is swallowed; any other
failure sets the banner to
`error instanceof Error ? error.message : 'Failed to add MCP server'` and is
re-raised. -/
def addMcpServerOutcome (authType : AuthType) (connectFailure : Option JsThrown) :
    AddServerOutcome :=
  match connectFailure with
  | none => ⟨none, false⟩
  | some e =>
    if isUnauthorizedError authType e then ⟨none, false⟩
    else ⟨some (if e.isErrorInstance then e.message else "Failed to add MCP server"), true⟩

/-- Session connection status of `MCPConnection` (src/types/mcp.ts). -/
inductive ConnStatus
  | disconnected
  | connecting
  | connected
  | failed
  deriving DecidableEq, Repr

/-- The slice of `MCPConnection` state that `connect` updates, together with
whether a backoff reconnect timer is armed. -/
structure ConnState where
  status : ConnStatus
  lastError : Option String
  connectionAttempts : Nat
  reconnectTimerArmed : Bool
  deriving DecidableEq, Repr

/-- State effect of `MCPConnectionManager.connect` in src/mcp/connection.ts
(the manager imported by src/contexts/MCPContext.tsx), as a function of the
underlying outcome of transport negotiation plus capability discovery
(`none` = success, `some cause` = the value that negotiation/discovery threw).
On success: status `connected`, attempt counter reset.  On failure: status
`failed`, `connectionErrorMessage cause` recorded, the counter incremented,
and `connectThrown cause` rethrown to the caller.  This `connect` contains no
reconnect scheduling of any kind — `reconnectTimeout` is cleared by the
initial `disconnect()` and never set — so the timer is unarmed on every exit
path. -/
def connectOutcome (prev : ConnState) (attempt : Option JsThrown) : ConnState :=
  match attempt with
  | none =>
    { status := .connected, lastError := none, connectionAttempts := 0
      reconnectTimerArmed := false }
  | some cause =>
    { status := .failed, lastError := some (connectionErrorMessage cause)
      connectionAttempts := prev.connectionAttempts + 1
      reconnectTimerArmed := false }

/-- `handleOAuthSuccess` in src/mcp/connection.ts: the callback invoked when
the OAuth flow completes simply re-attempts `connect` — reconnection after an
unauthorized failure awaits OAuth completion rather than a timer. -/
def handleOAuthSuccessOutcome (prev : ConnState) (attempt : Option JsThrown) : ConnState :=
  connectOutcome prev attempt

/-! ### Agent loop (src/hooks/useAgentLoop.ts) and conversation surface
(src/contexts/ConversationContext.tsx)

The inference backend is a parameter `oracle : Nat → Except String RespMessage`
giving, for the k-th `generateResponse` request of a run, either the response
message or the message of the error the await raised.  The behavior behind a
tool call (test tool body or MCP round trip) is a parameter
`exec : JsToolCall → Except String String`; `.ok s` carries the
JSON-serialized success payload and `.error e` the message of a thrown error
(or of the error returned by `executeTool`).  The try/catch of `executeTool`
is the conversion of that `Except` into the `{result, error}` pair below. -/

/-- A `ToolCall` of src/types/inference.ts: id, function name, and the (here
opaque, serialized) arguments object. -/
structure JsToolCall where
  id : String
  name : String
  arguments : String
  deriving DecidableEq, Repr

/-- The assistant `ChatMessage` returned by `generateResponse`: text content
and the optional `toolCalls` array (`none` models `undefined`; `some []` an
empty array, which JS treats as truthy). -/
structure RespMessage where
  content : String
  toolCalls : Option (List JsToolCall)
  deriving DecidableEq, Repr

/-- One item of a `ToolResultBlock`'s content array (src/types/conversation.ts):
`{type:'text', text}` or `{type:'error', error}`. -/
inductive ToolResultContent
  | textItem (text : String)
  | errorItem (err : String)
  deriving DecidableEq, Repr

/-- A conversation content block (src/types/conversation.ts): text, tool-use,
or tool-result with its `is_error` flag. -/
inductive Block
  | text (text : String)
  | tool_use (id name input : String)
  | tool_result (tool_use_id : String) (content : List ToolResultContent) (flaggedError : Bool)
  deriving DecidableEq, Repr

/-- A `ConversationMessage`: role and content blocks (ids and timestamps are
irrelevant to the claims and omitted). -/
structure Msg where
  role : String
  content : List Block
  deriving DecidableEq, Repr

/-- Conversation status (src/types/conversation.ts). -/
inductive ConvStatus
  | idle
  | thinking
  | calling_tools
  | error
  deriving DecidableEq, Repr

/-- A `Conversation`: its messages, status, and optional error text. -/
structure Conv where
  messages : List Msg
  status : ConvStatus
  convError : Option String
  deriving DecidableEq, Repr

/-- `AgentLoopConfig` (src/types/conversation.ts); `temperature` plays no role
in control flow and is omitted. -/
structure AgentLoopConfig where
  maxIterations : Nat
  systemMessage : String
  stopOnError : Bool
  deriving DecidableEq, Repr

/-- `DEFAULT_CONFIG` of src/hooks/useAgentLoop.ts, lines 90-95. -/
def DEFAULT_CONFIG : AgentLoopConfig :=
  { maxIterations := 10
    systemMessage := "You are a helpful assistant with access to various tools. Use them when needed to answer questions accurately."
    stopOnError := false }

/-- `currentStep` of `AgentLoopState` (src/types/conversation.ts). -/
inductive LoopStep
  | inference
  | tool_execution
  | complete
  deriving DecidableEq, Repr

/-- The cooperative cancellation flag at a given clock value: with
`abortAt = some t`, `abortController.signal.aborted` reads true once `t`
awaited operations have completed; `none` means cancellation is never
requested. -/
def abortedAt : Option Nat → Nat → Bool
  | none, _ => false
  | some t, clock => decide (t ≤ clock)

/-- The tool-result message built by `executeAgentLoop` (lines 313-339) for
one tool call.  `executeTool` catches every failure and returns
`{result: null, error: message}`; the loop then builds
`content: error ? [{type:'error', error}] : [{type:'text', text: JSON.stringify(result,null,2)}]`
and `is_error: !!error`.  A thrown `Error` with an empty message yields
`error === ''`, which is falsy in JS: the block then carries
`JSON.stringify(null) = "null"` as text and `is_error` is `false`. -/
def toolResultMsg (exec : JsToolCall → Except String String) (tc : JsToolCall) : Msg :=
  match exec tc with
  | .ok r => { role := "tool", content := [.tool_result tc.id [.textItem r] false] }
  | .error e =>
    if e == "" then { role := "tool", content := [.tool_result tc.id [.textItem "null"] false] }
    else { role := "tool", content := [.tool_result tc.id [.errorItem e] true] }

/-- The inner tool-execution loop of `executeAgentLoop` (lines 311-330):
before each tool call the abort flag is checked (`break` stops the batch);
each executed call advances the clock; results are collected in order.
Returns the collected tool-result messages and the clock after the batch. -/
def runTools (exec : JsToolCall → Except String String) (abortAt : Option Nat) :
    List JsToolCall → Nat → List Msg × Nat
  | [], clock => ([], clock)
  | tc :: rest, clock =>
    if abortedAt abortAt clock then ([], clock)
    else
      let msg := toolResultMsg exec tc
      let (restMsgs, clock') := runTools exec abortAt rest (clock + 1)
      (msg :: restMsgs, clock')

/-- `fromInferenceResponse` (src/hooks/useAgentLoop.ts, lines 155-186): a text
block when `response.content` is a non-empty string (truthiness), followed by
one `tool_use` block per tool call when `response.toolCalls` is present. -/
def fromInferenceResponse (m : RespMessage) : Msg :=
  { role := "assistant"
    content :=
      (if m.content == "" then [] else [Block.text m.content]) ++
      (match m.toolCalls with
       | some tcs => tcs.map fun tc => Block.tool_use tc.id tc.name tc.arguments
       | none => []) }

/-- Everything observable when `executeAgentLoop` settles: the local
`currentConversation`, the argument of the last `onUpdate` call (what
`ConversationContext` stores), the number of `generateResponse` requests
issued, the final `AgentLoopState` fields, the error it rethrows (if any),
and the final clock. -/
structure LoopOutcome where
  conv : Conv
  lastUpdate : Option Conv
  inferenceCalls : Nat
  currentStep : LoopStep
  isRunning : Bool
  loopError : Option String
  thrown : Option String
  clock : Nat
  deriving DecidableEq, Repr

/-- Exit path of `executeAgentLoop` after the `for` loop (lines 353-360):
`currentStep := 'complete'`, `isRunning := false`, and the conversation is
published once more with status `'idle'` (the `if (currentConversation)` guard
is always satisfied). -/
def finishRun (conv : Conv) (calls clock : Nat) : LoopOutcome :=
  let convF : Conv := { conv with status := ConvStatus.idle }
  { conv := convF, lastUpdate := some convF, inferenceCalls := calls
    currentStep := .complete, isRunning := false, loopError := none
    thrown := none, clock := clock }

/-- The conversation after the assistant message of one iteration is appended
(lines 289-298): status is `'calling_tools'` when `toolCalls` is present
(JS truthiness: also when it is an empty array) and `'idle'` otherwise. -/
def convAfterAssistant (conv : Conv) (m : RespMessage) : Conv :=
  { conv with
    messages := conv.messages ++ [fromInferenceResponse m]
    status := if m.toolCalls.isSome then .calling_tools else .idle }

/-- The conversation after a tool batch's collected result messages are
appended (lines 332-348): results become `role:'tool'` messages and the
status becomes `'thinking'`. -/
def convAfterTools (conv : Conv) (resultMsgs : List Msg) : Conv :=
  { conv with messages := conv.messages ++ resultMsgs, status := .thinking }

/-- One iteration body of the `for` loop of `executeAgentLoop` (lines
257-350), after the top-of-iteration abort check has passed.  The inference
request (`await generateResponse`) may fail, which jumps to the `catch` block:
the message is recorded on `loopState.error`, `isRunning` is cleared, the
conversation is not republished, and the error is rethrown exactly when
`stopOnError`.  On success the abort flag is checked again (a `break` before
the assistant message is appended); otherwise the assistant message is
appended and published, a `break` follows when there are no tool calls to run
(`toolCalls` missing or an empty array), and otherwise the tool batch runs
and `next` continues with the following iteration. -/
def loopIter (cfg : AgentLoopConfig) (oracle : Nat → Except String RespMessage)
    (exec : JsToolCall → Except String String) (abortAt : Option Nat)
    (calls clock : Nat) (conv : Conv) (lastUpd : Option Conv)
    (next : Nat → Conv → Nat → Option Conv → LoopOutcome) : LoopOutcome :=
  match oracle calls with
  | .error e =>
    { conv := conv, lastUpdate := lastUpd, inferenceCalls := calls + 1
      currentStep := .inference, isRunning := false, loopError := some e
      thrown := if cfg.stopOnError then some e else none, clock := clock + 1 }
  | .ok m =>
    if abortedAt abortAt (clock + 1) then finishRun conv (calls + 1) (clock + 1)
    else
      match m.toolCalls with
      | some (tc :: tcs) =>
        next (runTools exec abortAt (tc :: tcs) (clock + 1)).2
          (convAfterTools (convAfterAssistant conv m)
            (runTools exec abortAt (tc :: tcs) (clock + 1)).1)
          (calls + 1)
          (some (convAfterTools (convAfterAssistant conv m)
            (runTools exec abortAt (tc :: tcs) (clock + 1)).1))
      | _ => finishRun (convAfterAssistant conv m) (calls + 1) (clock + 1)

/-- The `for` loop of `executeAgentLoop` (lines 252-351), by remaining
iterations (`fuel`, initially `maxIterations`): abort check at the top of
each iteration, then the iteration body `loopIter`; when the fuel is
exhausted (`iteration = maxIterations`) or the body broke out, the epilogue
`finishRun` runs. -/
def runLoopAux (cfg : AgentLoopConfig) (oracle : Nat → Except String RespMessage)
    (exec : JsToolCall → Except String String) (abortAt : Option Nat) :
    Nat → Nat → Conv → Nat → Option Conv → LoopOutcome
  | 0, clock, conv, calls, _ => finishRun conv calls clock
  | fuel + 1, clock, conv, calls, lastUpd =>
    if abortedAt abortAt clock then finishRun conv calls clock
    else
      loopIter cfg oracle exec abortAt calls clock conv lastUpd
        (runLoopAux cfg oracle exec abortAt fuel)

/-- `executeAgentLoop` on a conversation, assuming an authenticated provider
(the unauthenticated precheck throws before the loop and is outside these
claims): the `for` loop starting at iteration 0, clock 0, no update published
yet. -/
def runAgentLoop (cfg : AgentLoopConfig) (oracle : Nat → Except String RespMessage)
    (exec : JsToolCall → Except String String) (abortAt : Option Nat)
    (conv : Conv) : LoopOutcome :=
  runLoopAux cfg oracle exec abortAt cfg.maxIterations 0 conv 0 none

/-- The user message appended by `addUserMessage`/`sendMessage`
(src/contexts/ConversationContext.tsx). -/
def userMsg (content : String) : Msg :=
  { role := "user", content := [Block.text content] }

/-- What `sendMessage` (src/contexts/ConversationContext.tsx, lines 183-222)
leaves behind: the conversation the context stores when everything settles and
the error `sendMessage` itself re-raises, if any. -/
structure SendOutcome where
  stored : Conv
  raised : Option String
  loop : LoopOutcome
  deriving DecidableEq, Repr

/-- `sendMessage`: `addUserMessage` stores the conversation with the new user
message and status `'idle'`; a separate local copy with status `'thinking'` is
handed to `executeAgentLoop` together with `updateConversation` as `onUpdate`,
so afterwards the context holds the argument of the last `onUpdate` call (or
still the `addUserMessage` result when the loop never published).  Only when
`executeAgentLoop` rejects does the catch block store the `'thinking'` copy
with status `'error'` and the failure message, and re-raise. -/
def sendMessage (cfg : AgentLoopConfig) (oracle : Nat → Except String RespMessage)
    (exec : JsToolCall → Except String String) (abortAt : Option Nat)
    (conv0 : Conv) (content : String) : SendOutcome :=
  let storedAfterAdd : Conv :=
    { conv0 with messages := conv0.messages ++ [userMsg content], status := .idle }
  let updatedConversation : Conv := { storedAfterAdd with status := .thinking }
  let r := runAgentLoop cfg oracle exec abortAt updatedConversation
  match r.thrown with
  | some e =>
    { stored := { updatedConversation with status := .error, convError := some e }
      raised := some e, loop := r }
  | none => { stored := r.lastUpdate.getD storedAfterAdd, raised := none, loop := r }

/-- Number of `role:'tool'` (tool-result) messages in a conversation. -/
def toolMsgCount (c : Conv) : Nat :=
  c.messages.countP fun m => m.role == "tool"

/-- Whether an inference outcome is a response that requests at least one tool
call (so that the loop will go through a tool-execution phase and iterate). -/
def respForcesTools : Except String RespMessage → Bool
  | .ok m =>
    match m.toolCalls with
    | some (_ :: _) => true
    | _ => false
  | .error _ => false

/-- Adjacent-character relation "not both underscores"; `List.Chain' SepR l`
says `l` contains no two adjacent underscores, i.e. no `"__"` substring. -/
def SepR (a b : Char) : Prop := (a == '_' && b == '_') = false

/-! ### Concrete fixtures used by witness and counterexample theorems -/

/-- An empty idle conversation. -/
def wConvEmpty : Conv := ⟨[], .idle, none⟩

/-- A namespaced tool call as a model would request it. -/
def wToolCall : JsToolCall := ⟨"call-1", "srv__tool", "args"⟩

/-- An inference backend that requests one tool call on every response. -/
def wOracleTools : Nat → Except String RespMessage :=
  fun _ => .ok ⟨"", some [wToolCall]⟩

/-- An inference backend whose first response requests a batch of three tool
calls and whose second response is plain text. -/
def wOracleBatch3 : Nat → Except String RespMessage :=
  fun k =>
    if k == 0 then
      .ok ⟨"", some [⟨"c1", "a__x", "args"⟩, ⟨"c2", "a__y", "args"⟩, ⟨"c3", "a__z", "args"⟩]⟩
    else .ok ⟨"done", none⟩

/-- An inference backend that always fails, modelling a network error. -/
def wOracleFail : Nat → Except String RespMessage := fun _ => .error "Network error"

/-- A tool executor that always succeeds. -/
def wExecOk : JsToolCall → Except String String := fun _ => .ok "42"

/-- The default configuration with `stopOnError` switched on. -/
def wCfgStop : AgentLoopConfig := { DEFAULT_CONFIG with stopOnError := true }

/-! ## Helper lemmas on strings and the normalization pipeline -/

theorem data_append (s t : String) : (s ++ t).data = s.data ++ t.data := rfl

theorem length_eq_data_length (s : String) : s.length = s.data.length := rfl

theorem collapseUnderscores_cons_cons (a b : Char) (t : List Char) :
    collapseUnderscores (a :: b :: t) =
      if a == '_' && b == '_' then collapseUnderscores (b :: t)
      else a :: collapseUnderscores (b :: t) := rfl

theorem splitFirstSep_cons_cons (a b : Char) (t : List Char) :
    splitFirstSep (a :: b :: t) =
      if a == '_' && b == '_' then [] else a :: splitFirstSep (b :: t) := rfl

theorem hasDoubleUnderscore_cons_cons (a b : Char) (t : List Char) :
    hasDoubleUnderscore (a :: b :: t) =
      ((a == '_' && b == '_') || hasDoubleUnderscore (b :: t)) := rfl

theorem mem_replaceInvalid_valid {l : List Char} {c : Char}
    (h : c ∈ replaceInvalid l) : isToolNameChar c = true := by
  rcases List.mem_map.mp h with ⟨a, _, hac⟩
  by_cases ha : isToolNameChar a = true
  · rw [if_pos ha] at hac
    rw [← hac]
    exact ha
  · rw [if_neg ha] at hac
    rw [← hac]
    decide

theorem collapseUnderscores_sublist : ∀ l : List Char, List.Sublist (collapseUnderscores l) l
  | [] => List.Sublist.refl []
  | [a] => List.Sublist.refl [a]
  | a :: b :: t => by
    rw [collapseUnderscores_cons_cons]
    by_cases h : (a == '_' && b == '_') = true
    · rw [if_pos h]
      exact (collapseUnderscores_sublist (b :: t)).cons a
    · rw [if_neg h]
      exact (collapseUnderscores_sublist (b :: t)).cons₂ a

theorem trimUnderscores_sublist (l : List Char) : List.Sublist (trimUnderscores l) l := by
  unfold trimUnderscores
  have h1 : List.Sublist (l.dropWhile (· == '_')) l := (List.dropWhile_suffix _).sublist
  have h2 : List.Sublist ((l.dropWhile (· == '_')).reverse.dropWhile (· == '_'))
      (l.dropWhile (· == '_')).reverse := (List.dropWhile_suffix _).sublist
  have h3 := h2.reverse
  rw [List.reverse_reverse] at h3
  exact h3.trans h1

theorem cleaned_sublist (n : String) :
    List.Sublist ((trimUnderscores (collapseUnderscores (replaceInvalid n.data))).take 32)
      (replaceInvalid n.data) :=
  ((List.take_sublist _ _).trans (trimUnderscores_sublist _)).trans
    (collapseUnderscores_sublist _)

theorem normalizeServerName_all_valid (n : String) :
    (normalizeServerName n).data.all isToolNameChar = true := by
  simp only [normalizeServerName]
  by_cases h : ((trimUnderscores (collapseUnderscores (replaceInvalid n.data))).take 32).isEmpty = true
  · rw [if_pos h]
    decide
  · rw [if_neg h]
    apply List.all_eq_true.mpr
    intro c hc
    exact mem_replaceInvalid_valid ((cleaned_sublist n).subset hc)

theorem normalizeServerName_length (n : String) :
    1 ≤ (normalizeServerName n).length ∧ (normalizeServerName n).length ≤ 32 := by
  simp only [normalizeServerName]
  by_cases h : ((trimUnderscores (collapseUnderscores (replaceInvalid n.data))).take 32).isEmpty = true
  · rw [if_pos h]
    decide
  · rw [if_neg h]
    constructor
    · have hne : (trimUnderscores (collapseUnderscores (replaceInvalid n.data))).take 32 ≠ [] := by
        simpa [List.isEmpty_iff] using h
      exact List.length_pos.mpr hne
    · exact List.length_take_le 32 _

theorem collapseUnderscores_head (t : List Char) :
    ∀ c : Char, ∃ u, collapseUnderscores (c :: t) = c :: u := by
  induction t with
  | nil => exact fun c => ⟨[], rfl⟩
  | cons b t' ih =>
    intro c
    by_cases h : (c == '_' && b == '_') = true
    · rcases ih b with ⟨u, hu⟩
      refine ⟨u, ?_⟩
      rw [collapseUnderscores_cons_cons, if_pos h, hu]
      have hc : c = '_' := by
        have := (Bool.and_eq_true _ _).mp h
        exact eq_of_beq this.1
      have hb : b = '_' := by
        have := (Bool.and_eq_true _ _).mp h
        exact eq_of_beq this.2
      rw [hc, hb]
    · exact ⟨collapseUnderscores (b :: t'), by rw [collapseUnderscores_cons_cons, if_neg h]⟩

theorem chain'_collapseUnderscores : ∀ l : List Char, List.Chain' SepR (collapseUnderscores l)
  | [] => List.chain'_nil
  | [a] => List.chain'_singleton a
  | a :: b :: t => by
    have ih := chain'_collapseUnderscores (b :: t)
    rw [collapseUnderscores_cons_cons]
    by_cases h : (a == '_' && b == '_') = true
    · rw [if_pos h]
      exact ih
    · rw [if_neg h]
      rcases collapseUnderscores_head t b with ⟨u, hu⟩
      rw [hu] at ih ⊢
      refine List.chain'_cons.mpr ⟨?_, ih⟩
      exact Bool.eq_false_iff.mpr h

theorem chain'_sepR_reverse {l : List Char} (h : List.Chain' SepR l) :
    List.Chain' SepR l.reverse := by
  apply List.chain'_reverse.mpr
  refine h.imp ?_
  intro a b hab
  show (b == '_' && a == '_') = false
  rw [Bool.and_comm]
  exact hab

theorem chain'_trimUnderscores {l : List Char} (h : List.Chain' SepR l) :
    List.Chain' SepR (trimUnderscores l) := by
  unfold trimUnderscores
  have h1 : List.Chain' SepR (l.dropWhile (· == '_')) := h.suffix (List.dropWhile_suffix _)
  have h2 : List.Chain' SepR ((l.dropWhile (· == '_')).reverse.dropWhile (· == '_')) :=
    (chain'_sepR_reverse h1).suffix (List.dropWhile_suffix _)
  exact chain'_sepR_reverse h2

theorem chain'_normalizeServerName (n : String) :
    List.Chain' SepR (normalizeServerName n).data := by
  simp only [normalizeServerName]
  by_cases h : ((trimUnderscores (collapseUnderscores (replaceInvalid n.data))).take 32).isEmpty = true
  · rw [if_pos h]
    show List.Chain' SepR ['s', 'e', 'r', 'v', 'e', 'r']
    simp only [List.chain'_cons, List.chain'_singleton, and_true]
    exact ⟨rfl, rfl, rfl, rfl, rfl⟩
  · rw [if_neg h]
    exact List.Chain'.prefix (chain'_trimUnderscores (chain'_collapseUnderscores _))
      ⟨_, List.take_append_drop 32 _⟩

theorem splitFirstSep_append (p orig : List Char)
    (hchain : List.Chain' SepR p) (hlast : p.getLast? ≠ some '_') :
    splitFirstSep (p ++ '_' :: '_' :: orig) = p := by
  induction p with
  | nil => rfl
  | cons a p' ih =>
    cases p' with
    | nil =>
      have ha : a ≠ '_' := by simpa using hlast
      show splitFirstSep (a :: '_' :: '_' :: orig) = [a]
      rw [splitFirstSep_cons_cons]
      rw [if_neg (by simp [ha])]
      rfl
    | cons b p'' =>
      have hab : SepR a b := (List.chain'_cons.mp hchain).1
      have hchain' : List.Chain' SepR (b :: p'') := (List.chain'_cons.mp hchain).2
      have hlast' : (b :: p'').getLast? ≠ some '_' := by
        rwa [List.getLast?_cons_cons] at hlast
      show splitFirstSep (a :: b :: (p'' ++ '_' :: '_' :: orig)) = a :: b :: p''
      rw [splitFirstSep_cons_cons]
      have hcond : ¬((a == '_' && b == '_') = true) := by
        have hx : (a == '_' && b == '_') = false := hab
        simp [hx]
      rw [if_neg hcond]
      have := ih hchain' hlast'
      rw [List.cons_append] at this
      rw [this]

theorem hasDoubleUnderscore_append (p orig : List Char) :
    hasDoubleUnderscore (p ++ '_' :: '_' :: orig) = true := by
  induction p with
  | nil => rfl
  | cons a p' ih =>
    cases p' with
    | nil =>
      show hasDoubleUnderscore (a :: '_' :: '_' :: orig) = true
      rw [hasDoubleUnderscore_cons_cons]
      have h0 : hasDoubleUnderscore ('_' :: '_' :: orig) = true := rfl
      rw [h0, Bool.or_true]
    | cons b p'' =>
      show hasDoubleUnderscore (a :: b :: (p'' ++ '_' :: '_' :: orig)) = true
      rw [hasDoubleUnderscore_cons_cons]
      have := ih
      rw [List.cons_append] at this
      rw [this, Bool.or_true]

theorem namespacedToolName_data (s t : String) :
    (namespacedToolName s t).data =
      (normalizeServerName s).data ++ '_' :: '_' :: t.data := by
  show ((normalizeServerName s ++ "__") ++ t).data = _
  rw [data_append, data_append, List.append_assoc]
  rfl

theorem namespacedToolName_length (s t : String) :
    (namespacedToolName s t).length = (normalizeServerName s).length + 2 + t.length := by
  rw [length_eq_data_length, namespacedToolName_data, List.length_append, List.length_cons,
    List.length_cons]
  rw [length_eq_data_length, length_eq_data_length]
  omega

theorem callToolName_strip (connName orig : String) :
    callToolName connName (namespacedToolName connName orig) = orig := by
  unfold callToolName
  have hpfx : (normalizeServerName connName ++ "__").data.isPrefixOf
      (namespacedToolName connName orig).data = true := by
    apply List.isPrefixOf_iff_prefix.mpr
    show (normalizeServerName connName ++ "__").data <+:
      ((normalizeServerName connName ++ "__") ++ orig).data
    rw [data_append]
    exact List.prefix_append _ _
  rw [if_pos hpfx]
  have hdrop : (namespacedToolName connName orig).data.drop
      ((normalizeServerName connName).length + 2) = orig.data := by
    show ((normalizeServerName connName ++ "__") ++ orig).data.drop _ = _
    rw [data_append]
    have hlen : (normalizeServerName connName ++ "__").data.length
        = (normalizeServerName connName).length + 2 := by
      rw [data_append, List.length_append, length_eq_data_length]
      rfl
    rw [← hlen, List.drop_left]
  rw [hdrop]

theorem testToolNames_contains_eq_false {t : String}
    (h : hasDoubleUnderscore t.data = true) : testToolNames.contains t = false := by
  have h1 : ¬(t = "get_weather") := by
    intro he
    rw [he] at h
    exact absurd h (by decide)
  have h2 : ¬(t = "get_current_time") := by
    intro he
    rw [he] at h
    exact absurd h (by decide)
  simp [testToolNames, List.contains, h1, h2]

/-! ## Claim theorems -/

/-- C9: for every display name `n`, `normalizeServerName n` is non-empty and
matches `^[A-Za-z0-9_-]{1,32}$` in full — the pipeline (replace invalid
characters by `_`, collapse repeated `_`, trim leading/trailing `_`, truncate
to 32, fall back to `"server"`) always lands in the pattern. -/
theorem c9_normalize_pattern (n : String) :
    normalizeServerName n ≠ "" ∧ matchesToolNamePattern 32 (normalizeServerName n) = true := by
  have hlen := normalizeServerName_length n
  have hall := normalizeServerName_all_valid n
  constructor
  · intro he
    rw [he] at hlen
    exact absurd hlen.1 (by decide)
  · unfold matchesToolNamePattern
    rw [Bool.and_eq_true, Bool.and_eq_true]
    exact ⟨⟨decide_eq_true hlen.1, decide_eq_true hlen.2⟩, hall⟩

/-- C2 (counterexample): the namespaced tool name built by `discoverTools`
does not always match `^[A-Za-z0-9_-]{1,64}$` — with server name `"weather"`
and an original tool name of 61 `a`s the namespaced name has length
`7 + 2 + 61 = 70 > 64`, because the original tool name is neither truncated
nor sanitized. -/
theorem c2_namespaced_pattern_counterexample :
    matchesToolNamePattern 64
      (namespacedToolName "weather" ⟨List.replicate 61 'a'⟩) = false := by
  decide

/-- C2 (amended): the namespaced tool name `normalize(serverName) ++ "__" ++
originalName` matches `^[A-Za-z0-9_-]{1,64}$` provided the original tool name
consists only of characters in `[A-Za-z0-9_-]` and the total length
`|normalize(serverName)| + 2 + |originalName|` does not exceed 64; the code
itself enforces no bound on the original tool name. -/
theorem c2_namespaced_pattern_amended (serverName toolName : String)
    (hchars : toolName.data.all isToolNameChar = true)
    (hlen : (normalizeServerName serverName).length + 2 + toolName.length ≤ 64) :
    matchesToolNamePattern 64 (namespacedToolName serverName toolName) = true := by
  have hnorm := normalizeServerName_length serverName
  have hall := normalizeServerName_all_valid serverName
  unfold matchesToolNamePattern
  rw [Bool.and_eq_true, Bool.and_eq_true]
  refine ⟨⟨decide_eq_true ?_, decide_eq_true ?_⟩, ?_⟩
  · rw [namespacedToolName_length]
    omega
  · rw [namespacedToolName_length]
    exact hlen
  · rw [namespacedToolName_data, List.all_append, List.all_cons, List.all_cons]
    simp [hall, hchars]
    decide

/-- C2 (witness for the amended theorem): `weather__get_forecast` satisfies
the pattern. -/
theorem c2_namespaced_pattern_witness :
    matchesToolNamePattern 64 (namespacedToolName "weather" "get_forecast") = true :=
  c2_namespaced_pattern_amended "weather" "get_forecast" (by decide) (by decide)

/-- C1 (counterexample): the round-trip law fails once a display name is
edited after the tools were published, because `executeTool` resolves the
owning session by recomputing `normalizeServerName` from the current display
name rather than from a recorded mapping.  A session added as `"My Server"`
published the namespaced name `"My_Server__t"`; after its display name became
`"Other"` the call is not routed to the session at all but fails with the
server-not-found error. -/
theorem c1_roundTrip_counterexample :
    routeToolCall [⟨"id1", "Other"⟩] (namespacedToolName "My Server" "t")
        = RouteResult.errorRoute "server not found"
  ∧ routeToolCall [⟨"id1", "Other"⟩] (namespacedToolName "My Server" "t")
        ≠ RouteResult.mcp "id1" "t" := by
  constructor
  · decide
  · decide

/-- C1 (amended): resolution recomputes the prefix from the current display
name, so the round-trip law holds only while the owning session's display
name is unchanged since publication; additionally the session must be the
first in the list whose current name normalizes to that prefix, and the
normalized name must not end in `'_'` (which the 32-character truncation can
reintroduce).  Under those conditions a published namespaced name is routed
to the originating session with the original (unprefixed) tool name. -/
theorem c1_roundTrip_amended (conns : List MCPConn) (conn : MCPConn) (orig : String)
    (hfind : conns.find?
        (fun c => normalizeServerName c.name == normalizeServerName conn.name) = some conn)
    (hlast : (normalizeServerName conn.name).data.getLast? ≠ some '_') :
    routeToolCall conns (namespacedToolName conn.name orig)
      = RouteResult.mcp conn.id orig := by
  have hdouble : hasDoubleUnderscore (namespacedToolName conn.name orig).data = true := by
    rw [namespacedToolName_data]
    exact hasDoubleUnderscore_append _ _
  have hsplit : (⟨splitFirstSep (namespacedToolName conn.name orig).data⟩ : String)
      = normalizeServerName conn.name := by
    have h1 : splitFirstSep (namespacedToolName conn.name orig).data
        = (normalizeServerName conn.name).data := by
      rw [namespacedToolName_data]
      exact splitFirstSep_append _ _ (chain'_normalizeServerName conn.name) hlast
    exact congrArg String.mk h1
  have hcont : testToolNames.contains (namespacedToolName conn.name orig) = false :=
    testToolNames_contains_eq_false hdouble
  have hcond1 : ¬(testToolNames.contains (namespacedToolName conn.name orig) = true) := by
    rw [hcont]
    simp
  unfold routeToolCall
  rw [if_neg hcond1, if_pos hdouble, hsplit, hfind]
  show RouteResult.mcp conn.id (callToolName conn.name (namespacedToolName conn.name orig)) = _
  rw [callToolName_strip]

/-- C1 (witness for the amended theorem): with the display name unchanged, the
published name `"My_Server__t"` routes back to its session with tool name
`"t"`. -/
theorem c1_roundTrip_witness :
    routeToolCall [⟨"id1", "My Server"⟩] (namespacedToolName "My Server" "t")
      = RouteResult.mcp "id1" "t" :=
  c1_roundTrip_amended [⟨"id1", "My Server"⟩] ⟨"id1", "My Server"⟩ "t"
    (by decide) (by decide)

/-- C10: `MCPConnectionManager.callTool` strips exactly its own session's
normalized prefix — a namespaced name it published itself comes back as the
original tool name — and any name that does not start with
`normalize(displayName) ++ "__"` is forwarded to the remote server unchanged
rather than rejected as not found. -/
theorem c10_prefix_strip_forward (connName orig toolName : String) :
    callToolName connName (namespacedToolName connName orig) = orig
  ∧ ((normalizeServerName connName ++ "__").data.isPrefixOf toolName.data = true
      ∨ callToolName connName toolName = toolName) := by
  refine ⟨callToolName_strip connName orig, ?_⟩
  by_cases h : (normalizeServerName connName ++ "__").data.isPrefixOf toolName.data = true
  · exact Or.inl h
  · refine Or.inr ?_
    unfold callToolName
    rw [if_neg h]

/-! ## Helper lemmas on the agent loop -/

theorem abortedAt_none (clock : Nat) : abortedAt none clock = false := rfl

theorem loopIter_error (cfg : AgentLoopConfig) (oracle : Nat → Except String RespMessage)
    (exec : JsToolCall → Except String String) (abortAt : Option Nat)
    (calls clock : Nat) (conv : Conv) (lastUpd : Option Conv)
    (next : Nat → Conv → Nat → Option Conv → LoopOutcome) (e : String)
    (h : oracle calls = .error e) :
    loopIter cfg oracle exec abortAt calls clock conv lastUpd next
      = { conv := conv, lastUpdate := lastUpd, inferenceCalls := calls + 1
          currentStep := .inference, isRunning := false, loopError := some e
          thrown := if cfg.stopOnError then some e else none, clock := clock + 1 } := by
  unfold loopIter
  rw [h]

theorem loopIter_ok_aborted (cfg : AgentLoopConfig) (oracle : Nat → Except String RespMessage)
    (exec : JsToolCall → Except String String) (abortAt : Option Nat)
    (calls clock : Nat) (conv : Conv) (lastUpd : Option Conv)
    (next : Nat → Conv → Nat → Option Conv → LoopOutcome) (m : RespMessage)
    (h : oracle calls = .ok m) (hab : abortedAt abortAt (clock + 1) = true) :
    loopIter cfg oracle exec abortAt calls clock conv lastUpd next
      = finishRun conv (calls + 1) (clock + 1) := by
  unfold loopIter
  rw [h]
  simp only [hab, if_true]

theorem loopIter_ok_noTools (cfg : AgentLoopConfig) (oracle : Nat → Except String RespMessage)
    (exec : JsToolCall → Except String String) (abortAt : Option Nat)
    (calls clock : Nat) (conv : Conv) (lastUpd : Option Conv)
    (next : Nat → Conv → Nat → Option Conv → LoopOutcome) (m : RespMessage)
    (h : oracle calls = .ok m) (hab : abortedAt abortAt (clock + 1) = false)
    (htc : m.toolCalls = none ∨ m.toolCalls = some []) :
    loopIter cfg oracle exec abortAt calls clock conv lastUpd next
      = finishRun (convAfterAssistant conv m) (calls + 1) (clock + 1) := by
  unfold loopIter
  rw [h]
  simp only [hab, Bool.false_eq_true, if_false]
  rcases htc with htc | htc <;> rw [htc]

theorem loopIter_ok_tools (cfg : AgentLoopConfig) (oracle : Nat → Except String RespMessage)
    (exec : JsToolCall → Except String String) (abortAt : Option Nat)
    (calls clock : Nat) (conv : Conv) (lastUpd : Option Conv)
    (next : Nat → Conv → Nat → Option Conv → LoopOutcome) (m : RespMessage)
    (tc : JsToolCall) (tcs : List JsToolCall)
    (h : oracle calls = .ok m) (hab : abortedAt abortAt (clock + 1) = false)
    (htc : m.toolCalls = some (tc :: tcs)) :
    loopIter cfg oracle exec abortAt calls clock conv lastUpd next
      = next (runTools exec abortAt (tc :: tcs) (clock + 1)).2
          (convAfterTools (convAfterAssistant conv m)
            (runTools exec abortAt (tc :: tcs) (clock + 1)).1)
          (calls + 1)
          (some (convAfterTools (convAfterAssistant conv m)
            (runTools exec abortAt (tc :: tcs) (clock + 1)).1)) := by
  unfold loopIter
  rw [h]
  simp only [hab, Bool.false_eq_true, if_false]
  rw [htc]

theorem runLoopAux_zero (cfg : AgentLoopConfig) (oracle : Nat → Except String RespMessage)
    (exec : JsToolCall → Except String String) (abortAt : Option Nat)
    (clock : Nat) (conv : Conv) (calls : Nat) (lastUpd : Option Conv) :
    runLoopAux cfg oracle exec abortAt 0 clock conv calls lastUpd
      = finishRun conv calls clock := rfl

theorem runLoopAux_succ_live (cfg : AgentLoopConfig) (oracle : Nat → Except String RespMessage)
    (exec : JsToolCall → Except String String) (abortAt : Option Nat)
    (fuel clock : Nat) (conv : Conv) (calls : Nat) (lastUpd : Option Conv)
    (h : abortedAt abortAt clock = false) :
    runLoopAux cfg oracle exec abortAt (fuel + 1) clock conv calls lastUpd
      = loopIter cfg oracle exec abortAt calls clock conv lastUpd
          (runLoopAux cfg oracle exec abortAt fuel) := by
  simp only [runLoopAux]
  simp only [h, Bool.false_eq_true, if_false]

theorem runLoopAux_aborted (cfg : AgentLoopConfig) (oracle : Nat → Except String RespMessage)
    (exec : JsToolCall → Except String String) (abortAt : Option Nat)
    (fuel clock : Nat) (conv : Conv) (calls : Nat) (lastUpd : Option Conv)
    (h : abortedAt abortAt clock = true) :
    runLoopAux cfg oracle exec abortAt fuel clock conv calls lastUpd
      = finishRun conv calls clock := by
  cases fuel with
  | zero => rfl
  | succ n =>
    simp only [runLoopAux]
    simp only [h, if_true]

theorem runTools_noAbort (exec : JsToolCall → Except String String) :
    ∀ (tcs : List JsToolCall) (clock : Nat),
      runTools exec none tcs clock
        = (tcs.map (toolResultMsg exec), clock + tcs.length) := by
  intro tcs
  induction tcs with
  | nil => intro clock; rfl
  | cons tc rest ih =>
    intro clock
    simp only [runTools, abortedAt_none, Bool.false_eq_true, if_false]
    rw [ih (clock + 1)]
    have harith : clock + 1 + rest.length = clock + (rest.length + 1) := by omega
    rw [harith]
    rfl

theorem runLoopAux_thrown_none (cfg : AgentLoopConfig)
    (oracle : Nat → Except String RespMessage) (exec : JsToolCall → Except String String)
    (abortAt : Option Nat) (hstop : cfg.stopOnError = false) :
    ∀ fuel clock conv calls lastUpd,
      (runLoopAux cfg oracle exec abortAt fuel clock conv calls lastUpd).thrown = none := by
  intro fuel
  induction fuel with
  | zero => intro clock conv calls lastUpd; rfl
  | succ n ih =>
    intro clock conv calls lastUpd
    by_cases h : abortedAt abortAt clock = true
    · rw [runLoopAux_aborted _ _ _ _ _ _ _ _ _ h]
      rfl
    · rw [runLoopAux_succ_live _ _ _ _ _ _ _ _ _ (Bool.eq_false_iff.mpr h)]
      cases horacle : oracle calls with
      | error e =>
        rw [loopIter_error _ _ _ _ _ _ _ _ _ e horacle]
        simp [hstop]
      | ok m =>
        by_cases h1 : abortedAt abortAt (clock + 1) = true
        · rw [loopIter_ok_aborted _ _ _ _ _ _ _ _ _ m horacle h1]
          rfl
        · cases htc : m.toolCalls with
          | none =>
            rw [loopIter_ok_noTools _ _ _ _ _ _ _ _ _ m horacle
              (Bool.eq_false_iff.mpr h1) (Or.inl htc)]
            rfl
          | some l =>
            cases l with
            | nil =>
              rw [loopIter_ok_noTools _ _ _ _ _ _ _ _ _ m horacle
                (Bool.eq_false_iff.mpr h1) (Or.inr htc)]
              rfl
            | cons tc tcs =>
              rw [loopIter_ok_tools _ _ _ _ _ _ _ _ _ m tc tcs horacle
                (Bool.eq_false_iff.mpr h1) htc]
              exact ih _ _ _ _

theorem runLoopAux_messages_mono (cfg : AgentLoopConfig)
    (oracle : Nat → Except String RespMessage) (exec : JsToolCall → Except String String)
    (abortAt : Option Nat) :
    ∀ fuel clock conv calls lastUpd, ∃ suffix,
      (runLoopAux cfg oracle exec abortAt fuel clock conv calls lastUpd).conv.messages
        = conv.messages ++ suffix := by
  intro fuel
  induction fuel with
  | zero => intro clock conv calls lastUpd; exact ⟨[], by simp [runLoopAux_zero, finishRun]⟩
  | succ n ih =>
    intro clock conv calls lastUpd
    by_cases h : abortedAt abortAt clock = true
    · rw [runLoopAux_aborted _ _ _ _ _ _ _ _ _ h]
      exact ⟨[], by simp [finishRun]⟩
    · rw [runLoopAux_succ_live _ _ _ _ _ _ _ _ _ (Bool.eq_false_iff.mpr h)]
      cases horacle : oracle calls with
      | error e =>
        rw [loopIter_error _ _ _ _ _ _ _ _ _ e horacle]
        exact ⟨[], by simp⟩
      | ok m =>
        by_cases h1 : abortedAt abortAt (clock + 1) = true
        · rw [loopIter_ok_aborted _ _ _ _ _ _ _ _ _ m horacle h1]
          exact ⟨[], by simp [finishRun]⟩
        · cases htc : m.toolCalls with
          | none =>
            rw [loopIter_ok_noTools _ _ _ _ _ _ _ _ _ m horacle
              (Bool.eq_false_iff.mpr h1) (Or.inl htc)]
            exact ⟨[fromInferenceResponse m], by simp [finishRun, convAfterAssistant]⟩
          | some l =>
            cases l with
            | nil =>
              rw [loopIter_ok_noTools _ _ _ _ _ _ _ _ _ m horacle
                (Bool.eq_false_iff.mpr h1) (Or.inr htc)]
              exact ⟨[fromInferenceResponse m], by simp [finishRun, convAfterAssistant]⟩
            | cons tc tcs =>
              rw [loopIter_ok_tools _ _ _ _ _ _ _ _ _ m tc tcs horacle
                (Bool.eq_false_iff.mpr h1) htc]
              rcases ih (runTools exec abortAt (tc :: tcs) (clock + 1)).2
                  (convAfterTools (convAfterAssistant conv m)
                    (runTools exec abortAt (tc :: tcs) (clock + 1)).1)
                  (calls + 1)
                  (some (convAfterTools (convAfterAssistant conv m)
                    (runTools exec abortAt (tc :: tcs) (clock + 1)).1)) with ⟨s, hs⟩
              refine ⟨[fromInferenceResponse m]
                  ++ (runTools exec abortAt (tc :: tcs) (clock + 1)).1 ++ s, ?_⟩
              rw [hs]
              simp [convAfterTools, convAfterAssistant]

theorem runLoopAux_calls_lower (cfg : AgentLoopConfig)
    (oracle : Nat → Except String RespMessage) (exec : JsToolCall → Except String String)
    (abortAt : Option Nat) :
    ∀ fuel clock conv calls lastUpd,
      calls ≤ (runLoopAux cfg oracle exec abortAt fuel clock conv calls lastUpd).inferenceCalls := by
  intro fuel
  induction fuel with
  | zero => intro clock conv calls lastUpd; exact Nat.le_refl _
  | succ n ih =>
    intro clock conv calls lastUpd
    by_cases h : abortedAt abortAt clock = true
    · rw [runLoopAux_aborted _ _ _ _ _ _ _ _ _ h]
      exact Nat.le_refl _
    · rw [runLoopAux_succ_live _ _ _ _ _ _ _ _ _ (Bool.eq_false_iff.mpr h)]
      cases horacle : oracle calls with
      | error e =>
        rw [loopIter_error _ _ _ _ _ _ _ _ _ e horacle]
        exact Nat.le_succ _
      | ok m =>
        by_cases h1 : abortedAt abortAt (clock + 1) = true
        · rw [loopIter_ok_aborted _ _ _ _ _ _ _ _ _ m horacle h1]
          exact Nat.le_succ _
        · cases htc : m.toolCalls with
          | none =>
            rw [loopIter_ok_noTools _ _ _ _ _ _ _ _ _ m horacle
              (Bool.eq_false_iff.mpr h1) (Or.inl htc)]
            exact Nat.le_succ _
          | some l =>
            cases l with
            | nil =>
              rw [loopIter_ok_noTools _ _ _ _ _ _ _ _ _ m horacle
                (Bool.eq_false_iff.mpr h1) (Or.inr htc)]
              exact Nat.le_succ _
            | cons tc tcs =>
              rw [loopIter_ok_tools _ _ _ _ _ _ _ _ _ m tc tcs horacle
                (Bool.eq_false_iff.mpr h1) htc]
              exact Nat.le_trans (Nat.le_succ _) (ih _ _ _ _)

theorem runLoopAux_calls_succ (cfg : AgentLoopConfig)
    (oracle : Nat → Except String RespMessage) (exec : JsToolCall → Except String String)
    (fuel clock : Nat) (conv : Conv) (calls : Nat) (lastUpd : Option Conv) :
    calls + 1
      ≤ (runLoopAux cfg oracle exec none (fuel + 1) clock conv calls lastUpd).inferenceCalls := by
  rw [runLoopAux_succ_live _ _ _ _ _ _ _ _ _ (abortedAt_none clock)]
  cases horacle : oracle calls with
  | error e =>
    rw [loopIter_error _ _ _ _ _ _ _ _ _ e horacle]
  | ok m =>
    by_cases h1 : abortedAt none (clock + 1) = true
    · rw [abortedAt_none] at h1
      exact absurd h1 (by simp)
    · cases htc : m.toolCalls with
      | none =>
        rw [loopIter_ok_noTools _ _ _ _ _ _ _ _ _ m horacle (abortedAt_none _) (Or.inl htc)]
        exact Nat.le_refl _
      | some l =>
        cases l with
        | nil =>
          rw [loopIter_ok_noTools _ _ _ _ _ _ _ _ _ m horacle (abortedAt_none _) (Or.inr htc)]
          exact Nat.le_refl _
        | cons tc tcs =>
          rw [loopIter_ok_tools _ _ _ _ _ _ _ _ _ m tc tcs horacle (abortedAt_none _) htc]
          exact runLoopAux_calls_lower cfg oracle exec none fuel _ _ _ _

theorem respForcesTools_elim {r : Except String RespMessage}
    (h : respForcesTools r = true) :
    ∃ m tc tcs, r = .ok m ∧ m.toolCalls = some (tc :: tcs) := by
  cases r with
  | error e => simp [respForcesTools] at h
  | ok m =>
    cases htc : m.toolCalls with
    | none => simp [respForcesTools, htc] at h
    | some l =>
      cases l with
      | nil => simp [respForcesTools, htc] at h
      | cons tc tcs => exact ⟨m, tc, tcs, rfl, htc⟩

theorem runLoopAux_forcesTools (cfg : AgentLoopConfig)
    (oracle : Nat → Except String RespMessage) (exec : JsToolCall → Except String String) :
    ∀ fuel calls clock conv lastUpd,
      (∀ k, calls ≤ k → k < calls + fuel → respForcesTools (oracle k) = true) →
      (runLoopAux cfg oracle exec none fuel clock conv calls lastUpd).inferenceCalls
          = calls + fuel
      ∧ (runLoopAux cfg oracle exec none fuel clock conv calls lastUpd).thrown = none
      ∧ (runLoopAux cfg oracle exec none fuel clock conv calls lastUpd).currentStep = .complete
      ∧ (runLoopAux cfg oracle exec none fuel clock conv calls lastUpd).isRunning = false := by
  intro fuel
  induction fuel with
  | zero =>
    intro calls clock conv lastUpd _
    exact ⟨rfl, rfl, rfl, rfl⟩
  | succ n ih =>
    intro calls clock conv lastUpd h
    have h0 : respForcesTools (oracle calls) = true := h calls (Nat.le_refl _) (by omega)
    rcases respForcesTools_elim h0 with ⟨m, tc, tcs, hor, htc⟩
    rw [runLoopAux_succ_live _ _ _ _ _ _ _ _ _ (abortedAt_none clock)]
    rw [loopIter_ok_tools _ _ _ _ _ _ _ _ _ m tc tcs hor (abortedAt_none _) htc]
    have ih' := ih (calls + 1) (runTools exec none (tc :: tcs) (clock + 1)).2
      (convAfterTools (convAfterAssistant conv m)
        (runTools exec none (tc :: tcs) (clock + 1)).1)
      (some (convAfterTools (convAfterAssistant conv m)
        (runTools exec none (tc :: tcs) (clock + 1)).1))
      (fun k hk1 hk2 => h k (by omega) (by omega))
    refine ⟨?_, ih'.2.1, ih'.2.2.1, ih'.2.2.2⟩
    rw [ih'.1]
    omega

theorem toolResultMsg_role (exec : JsToolCall → Except String String) (tc : JsToolCall) :
    (toolResultMsg exec tc).role = "tool" := by
  unfold toolResultMsg
  split
  · rfl
  · split
    · rfl
    · rfl

theorem fromInferenceResponse_role (m : RespMessage) :
    (fromInferenceResponse m).role = "assistant" := rfl

/-- C7: when every inference response requests at least one tool call and
cancellation is never requested, the agent loop issues exactly
`cfg.maxIterations` inference calls — never more — and then ends without
raising anything: `thrown = none` and the loop state is `complete` (silent
truncation).  The default cap is 10. -/
theorem c7_maxIterations_exact (cfg : AgentLoopConfig)
    (oracle : Nat → Except String RespMessage) (exec : JsToolCall → Except String String)
    (conv : Conv)
    (h : ∀ k, k < cfg.maxIterations → respForcesTools (oracle k) = true) :
    (runAgentLoop cfg oracle exec none conv).inferenceCalls = cfg.maxIterations
  ∧ (runAgentLoop cfg oracle exec none conv).thrown = none
  ∧ (runAgentLoop cfg oracle exec none conv).currentStep = .complete
  ∧ DEFAULT_CONFIG.maxIterations = 10 := by
  have hmain := runLoopAux_forcesTools cfg oracle exec cfg.maxIterations 0 0 conv none
    (fun k _ hk2 => h k (by omega))
  refine ⟨?_, hmain.2.1, hmain.2.2.1, rfl⟩
  have h1 := hmain.1
  rw [Nat.zero_add] at h1
  exact h1

/-- C7 (witness): at the default configuration with a backend that always
requests one tool call, the run makes exactly 10 inference calls and
completes silently. -/
theorem c7_maxIterations_witness :
    (runAgentLoop DEFAULT_CONFIG wOracleTools wExecOk none wConvEmpty).inferenceCalls
        = DEFAULT_CONFIG.maxIterations
  ∧ (runAgentLoop DEFAULT_CONFIG wOracleTools wExecOk none wConvEmpty).thrown = none
  ∧ (runAgentLoop DEFAULT_CONFIG wOracleTools wExecOk none wConvEmpty).currentStep = .complete
  ∧ DEFAULT_CONFIG.maxIterations = 10 :=
  c7_maxIterations_exact DEFAULT_CONFIG wOracleTools wExecOk wConvEmpty (fun _ _ => rfl)

/-- C6: when the first response carries a batch of three tool calls and
cancellation is requested between tool call 1 and tool call 2 (the abort flag
becomes readable after the second awaited operation — the inference call plus
the first tool call — has completed), exactly one tool-result message is
appended to the conversation, and the run becomes terminal (`complete`, not
running) after exactly one inference call. -/
theorem c6_cancel_midBatch (cfg : AgentLoopConfig)
    (oracle : Nat → Except String RespMessage) (exec : JsToolCall → Except String String)
    (conv : Conv) (m : RespMessage) (t1 t2 t3 : JsToolCall)
    (hmax : 1 ≤ cfg.maxIterations)
    (h0 : oracle 0 = .ok m)
    (htc : m.toolCalls = some [t1, t2, t3]) :
    toolMsgCount (runAgentLoop cfg oracle exec (some 2) conv).conv
        = toolMsgCount conv + 1
  ∧ (runAgentLoop cfg oracle exec (some 2) conv).inferenceCalls = 1
  ∧ (runAgentLoop cfg oracle exec (some 2) conv).currentStep = .complete
  ∧ (runAgentLoop cfg oracle exec (some 2) conv).isRunning = false := by
  obtain ⟨n, hn⟩ : ∃ n, cfg.maxIterations = n + 1 := ⟨cfg.maxIterations - 1, by omega⟩
  have hrun : runAgentLoop cfg oracle exec (some 2) conv
      = runLoopAux cfg oracle exec (some 2) (n + 1) 0 conv 0 none := by
    show runLoopAux cfg oracle exec (some 2) cfg.maxIterations 0 conv 0 none = _
    rw [hn]
  have htools : runTools exec (some 2) [t1, t2, t3] 1 = ([toolResultMsg exec t1], 2) := by
    show (if abortedAt (some 2) 1 = true then ([], 1) else _) = _
    rw [if_neg (by decide)]
    show (toolResultMsg exec t1 :: (runTools exec (some 2) [t2, t3] 2).1,
        (runTools exec (some 2) [t2, t3] 2).2) = _
    have h23 : runTools exec (some 2) [t2, t3] 2 = ([], 2) := by
      show (if abortedAt (some 2) 2 = true then ([], 2) else _) = _
      rw [if_pos (by decide)]
    rw [h23]
  rw [hrun]
  rw [runLoopAux_succ_live _ _ _ _ _ _ _ _ _ (by decide)]
  rw [loopIter_ok_tools _ _ _ _ _ _ _ _ _ m t1 [t2, t3] h0 (by decide) htc]
  rw [htools]
  have habort2 : abortedAt (some 2) (([toolResultMsg exec t1], 2) : List Msg × Nat).2 = true := rfl
  rw [runLoopAux_aborted _ _ _ _ _ _ _ _ _ habort2]
  refine ⟨?_, rfl, rfl, rfl⟩
  show toolMsgCount
      { convAfterTools (convAfterAssistant conv m) [toolResultMsg exec t1] with
          status := ConvStatus.idle } = toolMsgCount conv + 1
  unfold toolMsgCount convAfterTools convAfterAssistant
  rw [List.countP_append, List.countP_append]
  have hasst : ((fromInferenceResponse m).role == "tool") = false := rfl
  have htl : ((toolResultMsg exec t1).role == "tool") = true := by
    rw [toolResultMsg_role]
    decide
  simp [List.countP_cons, hasst, htl]

/-- C6 (witness): the default configuration, a three-call batch, and the abort
flag raised after the inference call and first tool call have completed. -/
theorem c6_cancel_midBatch_witness :
    toolMsgCount (runAgentLoop DEFAULT_CONFIG wOracleBatch3 wExecOk (some 2) wConvEmpty).conv
        = toolMsgCount wConvEmpty + 1
  ∧ (runAgentLoop DEFAULT_CONFIG wOracleBatch3 wExecOk (some 2) wConvEmpty).inferenceCalls = 1
  ∧ (runAgentLoop DEFAULT_CONFIG wOracleBatch3 wExecOk (some 2) wConvEmpty).currentStep
        = .complete
  ∧ (runAgentLoop DEFAULT_CONFIG wOracleBatch3 wExecOk (some 2) wConvEmpty).isRunning = false :=
  c6_cancel_midBatch DEFAULT_CONFIG wOracleBatch3 wExecOk wConvEmpty
    ⟨"", some [⟨"c1", "a__x", "args"⟩, ⟨"c2", "a__y", "args"⟩, ⟨"c3", "a__z", "args"⟩]⟩
    ⟨"c1", "a__x", "args"⟩ ⟨"c2", "a__y", "args"⟩ ⟨"c3", "a__z", "args"⟩
    (by decide) rfl rfl


/-- C3 (counterexample): under the default configuration
(`stopOnError = false`) a failing inference call does not surface the
conversation in `'error'` status — `executeAgentLoop` catches the failure,
records it only on `loopState.error`, and returns normally, so `sendMessage`
re-raises nothing and the stored conversation keeps the status written by
`addUserMessage` (`'idle'`). -/
theorem c3_inference_error_counterexample :
    (sendMessage DEFAULT_CONFIG wOracleFail wExecOk none wConvEmpty "hi").stored.status
        = ConvStatus.idle
  ∧ (sendMessage DEFAULT_CONFIG wOracleFail wExecOk none wConvEmpty "hi").stored.status
        ≠ ConvStatus.error
  ∧ (sendMessage DEFAULT_CONFIG wOracleFail wExecOk none wConvEmpty "hi").raised = none
  ∧ (sendMessage DEFAULT_CONFIG wOracleFail wExecOk none wConvEmpty "hi").loop.loopError
        = some "Network error" := by
  refine ⟨?_, ?_, ?_, ?_⟩ <;> decide

/-- C3 (amended): a failing inference call aborts the loop (exactly one
inference call is issued) and records the failure message on the loop state;
the conversation is surfaced in `'error'` status with the failure message
attached — and `sendMessage` re-raises — only when the configuration sets
`stopOnError = true`, which is not the default. -/
theorem c3_inference_error_amended (cfg : AgentLoopConfig)
    (oracle : Nat → Except String RespMessage) (exec : JsToolCall → Except String String)
    (conv0 : Conv) (content e : String)
    (hstop : cfg.stopOnError = true)
    (hmax : 1 ≤ cfg.maxIterations)
    (h0 : oracle 0 = .error e) :
    (sendMessage cfg oracle exec none conv0 content).raised = some e
  ∧ (sendMessage cfg oracle exec none conv0 content).stored.status = ConvStatus.error
  ∧ (sendMessage cfg oracle exec none conv0 content).stored.convError = some e
  ∧ (sendMessage cfg oracle exec none conv0 content).loop.inferenceCalls = 1
  ∧ (sendMessage cfg oracle exec none conv0 content).loop.loopError = some e := by
  obtain ⟨n, hn⟩ : ∃ n, cfg.maxIterations = n + 1 := ⟨cfg.maxIterations - 1, by omega⟩
  have hloop : ∀ X : Conv, runAgentLoop cfg oracle exec none X
      = { conv := X, lastUpdate := none, inferenceCalls := 1
          currentStep := .inference, isRunning := false, loopError := some e
          thrown := some e, clock := 1 } := by
    intro X
    show runLoopAux cfg oracle exec none cfg.maxIterations 0 X 0 none = _
    rw [hn]
    rw [runLoopAux_succ_live _ _ _ _ _ _ _ _ _ (abortedAt_none 0)]
    rw [loopIter_error _ _ _ _ _ _ _ _ _ e h0]
    rw [hstop]
    rfl
  simp only [sendMessage]
  rw [hloop]
  exact ⟨rfl, rfl, rfl, rfl, rfl⟩

/-- C3 (witness for the amended theorem): with `stopOnError = true` a network
error on the first inference call is re-raised and the stored conversation is
in `'error'` status with the message attached. -/
theorem c3_inference_error_witness :
    (sendMessage wCfgStop wOracleFail wExecOk none wConvEmpty "hi").raised
        = some "Network error"
  ∧ (sendMessage wCfgStop wOracleFail wExecOk none wConvEmpty "hi").stored.status
        = ConvStatus.error
  ∧ (sendMessage wCfgStop wOracleFail wExecOk none wConvEmpty "hi").stored.convError
        = some "Network error"
  ∧ (sendMessage wCfgStop wOracleFail wExecOk none wConvEmpty "hi").loop.inferenceCalls = 1
  ∧ (sendMessage wCfgStop wOracleFail wExecOk none wConvEmpty "hi").loop.loopError
        = some "Network error" :=
  c3_inference_error_amended wCfgStop wOracleFail wExecOk wConvEmpty "hi" "Network error"
    rfl (by decide) rfl

/-- C4 (code bug): the claim — and the code's own expected-OAuth branch — say
the OAuth-unauthorized connection failure must not be reported as a
user-facing connection error, but every failure `addMcpServer` catches from
`manager.connect()` is the plain `MCPError` object literal rethrown by
`connect` (`connectThrown`), never an `Error` instance; the
`error instanceof Error` guard inside `isUnauthorizedError` is therefore
false for *every* underlying cause — the SDK's `UnauthorizedError` included —
so `addMcpServer` always takes the else branch:
`setError('Failed to add MCP server')` (the user-facing banner) and a
re-raise.  The parts of the claim about the timer remain true: no backoff
reconnect timer is armed on any exit path of this manager's `connect`, and
the OAuth-completion callback re-runs `connect` (a successful re-attempt
yields status `connected`). -/
theorem c4_oauth_unauthorized_reported (authType : AuthType) (cause : JsThrown)
    (prev : ConnState) :
    isUnauthorizedError authType (connectThrown cause) = false
  ∧ (addMcpServerOutcome authType (some (connectThrown cause))).userError
        = some "Failed to add MCP server"
  ∧ (addMcpServerOutcome authType (some (connectThrown cause))).rethrows = true
  ∧ (connectOutcome prev (some cause)).reconnectTimerArmed = false
  ∧ (handleOAuthSuccessOutcome (connectOutcome prev (some cause)) none).status
        = ConnStatus.connected := by
  have h0 : isUnauthorizedError authType (connectThrown cause) = false := by
    unfold isUnauthorizedError connectThrown createMCPError
    simp
  refine ⟨h0, ?_, ?_, rfl, rfl⟩
  · show (if isUnauthorizedError authType (connectThrown cause) = true
        then (⟨none, false⟩ : AddServerOutcome)
        else ⟨some (if (connectThrown cause).isErrorInstance
                then (connectThrown cause).message
                else "Failed to add MCP server"), true⟩).userError
      = some "Failed to add MCP server"
    rw [if_neg (by simp [h0])]
    rfl
  · show (if isUnauthorizedError authType (connectThrown cause) = true
        then (⟨none, false⟩ : AddServerOutcome)
        else ⟨some (if (connectThrown cause).isErrorInstance
                then (connectThrown cause).message
                else "Failed to add MCP server"), true⟩).rethrows = true
    rw [if_neg (by simp [h0])]

/-- C8: for every consecutive-failed-attempt counter `n ≥ 1` the reconnect
backoff delay equals `min(1000·2^(n-1), 16000)` milliseconds, the delay is
non-decreasing in the attempt counter, and it never exceeds 16 seconds. -/
theorem c8_backoff_delay (n m : Nat) (h1 : 1 ≤ n) (hnm : n ≤ m) :
    getBackoffDelay n = min (1000 * 2 ^ (n - 1)) 16000
  ∧ getBackoffDelay n ≤ getBackoffDelay m
  ∧ getBackoffDelay n ≤ 16000 := by
  refine ⟨rfl, ?_, ?_⟩
  · unfold getBackoffDelay
    apply min_le_min ?_ (Nat.le_refl 16000)
    apply Nat.mul_le_mul (Nat.le_refl 1000)
    exact Nat.pow_le_pow_right (by omega) (by omega)
  · exact min_le_right _ _

/-- C8 (witness): the second attempt waits 2000 ms, no longer than the fifth,
and stays under the 16-second cap. -/
theorem c8_backoff_delay_witness :
    getBackoffDelay 2 = min (1000 * 2 ^ (2 - 1)) 16000
  ∧ getBackoffDelay 2 ≤ getBackoffDelay 5
  ∧ getBackoffDelay 2 ≤ 16000 :=
  c8_backoff_delay 2 5 (by decide) (by decide)

end ExampleRemoteClient
